import Mathlib

/-!
Verification development for the concurrent file downloader
(`concurrent-file-downloader.py`).

The worker thread `DownloadThread.run` is embedded as a pure function over a
`World` describing the environment it interacts with: the outcome of
`requests.get`, the outcome of `open(save_path, 'wb')`, the outcome of each
`f.write` call, and the moment (if any) at which the cooperative interrupt
flag `_is_interrupted` becomes set.  The flag is set exactly once from outside
and never cleared, so it is modelled by an optional threshold `interruptAt`:
the code reads the flag at discrete points (once per loop iteration, once
before the bulk write, once before emitting the finished signal), the reads
are numbered 0, 1, 2, … in program order, and the read numbered `t` observes
`true` exactly when `interruptAt = some k` with `k ≤ t`.

The GUI classes `DownloadWidget` and `DownloaderApp` are embedded as records
holding exactly the state the Python objects carry (`is_started`,
`is_finished`, the thread's interrupt flag, the status label text, the
interrupt button's enabled state, the progress bar value), with each method a
state-transition function.
-/

namespace Downloader

/-- Events emitted by a worker over its Qt signals: `progress_signal`,
`finished_signal`, `error_signal`. -/
inductive Event where
  | progress (id : String) (pct : Nat)
  | finished (id : String)
  | error (id : String) (msg : String)
deriving DecidableEq

/-- State of the destination file on disk. -/
inductive FileState where
  | absent
  | present (content : List Nat)
deriving DecidableEq

/-- The HTTP response obtained when `requests.get` succeeds.
`raiseErr = some m` means `response.raise_for_status()` raises with message
`m` (non-2xx status).  `contentLength` is the parsed `Content-Length` header,
`0` when absent (the source computes `int(response.headers.get
('content-length', 0))`).  `chunks` are the byte chunks yielded by
`response.iter_content(chunk_size=4096)`; `response.content` is their
concatenation. -/
structure HttpResponse where
  raiseErr : Option String
  contentLength : Nat
  chunks : List (List Nat)
deriving DecidableEq

/-- Outcome of the `requests.get` call: `fail m` models the call raising a
connection-level exception with message `m`. -/
inductive GetResult where
  | fail (msg : String)
  | resp (r : HttpResponse)
deriving DecidableEq

/-- The environment one execution of `DownloadThread.run` interacts with.
`writeErrs.getD i none = some m` means the `i`-th `f.write` call raises an
`OSError`-like exception with message `m`.  `interruptAt = some k` means the
`k`-th flag read (and every later one) observes `_is_interrupted = True`.
`file0` is the state of `save_path` before the run starts. -/
structure World where
  downloadId : String
  net : GetResult
  openErr : Option String
  writeErrs : List (Option String)
  interruptAt : Option Nat
  file0 : FileState

/-- Value observed by the flag read numbered `t`, given the threshold. -/
def isIntr (ia : Option Nat) (t : Nat) : Bool :=
  match ia with
  | none => false
  | some k => k ≤ t

/-- Percentage computation `int((downloaded / total_size) * 100)`.

The source computes this with IEEE-754 double division and multiplication and
truncates; it is modelled here as the exact floor `downloaded * 100 / total`,
which is what the division is intended to produce.  The double-precision
rounding can undershoot this exact value (e.g. `int((118784/409600)*100)`
evaluates to `28` while the exact floor is `29`); that discrepancy is
discussed where relevant and is not hidden by this model. -/
def pct (downloaded total : Nat) : Nat :=
  downloaded * 100 / total

/-- How the chunked download loop ended: `ok next` means the stream was
exhausted and the next flag read is numbered `next`; `intr` means
`InterruptedError` was raised at a chunk boundary; `err m` means an `f.write`
call raised with message `m`. -/
inductive LoopStatus where
  | ok (next : Nat)
  | intr
  | err (msg : String)
deriving DecidableEq

/-- Result of the chunked loop: the progress events it emitted, the bytes it
wrote to the file, the individual write operations it performed (tagged with
the number of the flag read that guarded each one), and how it ended. -/
structure LoopOut where
  evs : List Event
  written : List Nat
  writes : List (Nat × List Nat)
  status : LoopStatus
deriving DecidableEq

/-- The `for data in response.iter_content(chunk_size=4096):` loop of
`DownloadThread.run` (source lines 60–66): check the interrupt flag, raise
`InterruptedError` if set; otherwise write the chunk (which may itself
raise), accumulate `downloaded`, and emit a progress event with the computed
percentage.  `i` numbers the flag reads, `d` is `downloaded` so far. -/
def downloadLoop (ia : Option Nat) (werrs : List (Option String))
    (total : Nat) (id : String) :
    List (List Nat) → Nat → Nat → LoopOut
  | [], i, _ => ⟨[], [], [], .ok i⟩
  | c :: cs, i, d =>
    if isIntr ia i then ⟨[], [], [], .intr⟩
    else
      match werrs.getD i none with
      | some m => ⟨[], [], [], .err m⟩
      | none =>
        let d' := d + c.length
        let rest := downloadLoop ia werrs total id cs (i + 1) d'
        ⟨.progress id (pct d' total) :: rest.evs,
         c ++ rest.written,
         (i, c) :: rest.writes,
         rest.status⟩

/-- Observable outcome of one execution of `run`: the events emitted in
order, the final state of the destination file, and the write operations
performed. -/
structure RunResult where
  events : List Event
  file : FileState
  writes : List (Nat × List Nat)
deriving DecidableEq

/-- Embedding of `DownloadThread.run` (source lines 43–77).

Control flow of the source: `requests.get` or `raise_for_status` raising is
caught by the generic `except Exception` handler (one error event, no file
cleanup); so is a failing `open`.  With the file open (created empty by mode
`'wb'`), a zero `total_size` leads to a single guarded bulk write of
`response.content` — note that when the guard observes the interrupt flag set
the write is merely skipped, no exception is raised; a nonzero `total_size`
runs the chunked loop.  `InterruptedError` raised in the loop is caught by
its own handler which emits the error event and then removes the file.
Finally `finished_signal` is emitted only if a last flag read observes the
flag unset. -/
def run (w : World) : RunResult :=
  match w.net with
  | .fail m => ⟨[.error w.downloadId m], w.file0, []⟩
  | .resp r =>
    match r.raiseErr with
    | some m => ⟨[.error w.downloadId m], w.file0, []⟩
    | none =>
      match w.openErr with
      | some m => ⟨[.error w.downloadId m], w.file0, []⟩
      | none =>
        if r.contentLength = 0 then
          -- `if not self._is_interrupted: f.write(response.content)`
          if isIntr w.interruptAt 0 then
            -- write skipped; no exception raised, no finished signal either
            -- (the later read at line 68 also observes the flag set)
            ⟨[], .present [], []⟩
          else
            match w.writeErrs.getD 0 none with
            | some m => ⟨[.error w.downloadId m], .present [], []⟩
            | none =>
              let body := r.chunks.flatten
              if isIntr w.interruptAt 1 then
                ⟨[], .present body, [(0, body)]⟩
              else
                ⟨[.finished w.downloadId], .present body, [(0, body)]⟩
        else
          let L := downloadLoop w.interruptAt w.writeErrs
            r.contentLength w.downloadId r.chunks 0 0
          match L.status with
          | .intr =>
            -- except InterruptedError: emit error, then delete the file
            ⟨L.evs ++ [.error w.downloadId "Download interrupted by user"],
             .absent, L.writes⟩
          | .err m =>
            -- generic except: emit error, keep the file as written so far
            ⟨L.evs ++ [.error w.downloadId m], .present L.written, L.writes⟩
          | .ok next =>
            if isIntr w.interruptAt next then
              ⟨L.evs, .present L.written, L.writes⟩
            else
              ⟨L.evs ++ [.finished w.downloadId], .present L.written, L.writes⟩

/-- Running byte totals after each chunk, starting from `d` bytes already
transferred: the successive values of `downloaded` in the loop. -/
def runningTotals (d : Nat) : List (List Nat) → List Nat
  | [] => []
  | c :: cs => (d + c.length) :: runningTotals (d + c.length) cs

/-- The progress events corresponding to a list of byte totals. -/
def progressEvents (id : String) (total : Nat) (ts : List Nat) : List Event :=
  ts.map (fun x => Event.progress id (pct x total))

/-- The write operations for consecutive chunks, first guarded by flag
read `i`. -/
def enumWrites (i : Nat) : List (List Nat) → List (Nat × List Nat)
  | [] => []
  | c :: cs => (i, c) :: enumWrites (i + 1) cs

/-- The percentage carried by a progress event, if any. -/
def percentOf : Event → Option Nat
  | .progress _ p => some p
  | _ => none

/-- The sequence of percentages carried by the progress events of a trace. -/
def emittedPercents (evs : List Event) : List Nat :=
  evs.filterMap percentOf

/-- A clean loop: no interruption observed and no write failure while the
chunks last.  The loop consumes every chunk, emits one progress event per
chunk, writes everything, and ends with the next flag read numbered past the
consumed chunks. -/
theorem downloadLoop_clean (ia : Option Nat) (werrs : List (Option String))
    (total : Nat) (id : String) :
    ∀ (chunks : List (List Nat)) (i d : Nat),
      (∀ j, j < chunks.length → isIntr ia (i + j) = false) →
      (∀ j, j < chunks.length → werrs.getD (i + j) none = none) →
      downloadLoop ia werrs total id chunks i d =
        ⟨progressEvents id total (runningTotals d chunks),
         chunks.flatten, enumWrites i chunks, .ok (i + chunks.length)⟩
  | [], i, d, _, _ => by
      simp [downloadLoop, progressEvents, runningTotals, enumWrites]
  | c :: cs, i, d, hI, hW => by
      have h0 : isIntr ia i = false := by simpa using hI 0 (by simp)
      have hw0 : werrs.getD i none = none := by simpa using hW 0 (by simp)
      have ih := downloadLoop_clean ia werrs total id cs (i + 1) (d + c.length)
        (fun j hj => by
          have := hI (j + 1) (by simpa using Nat.succ_lt_succ hj)
          simpa [Nat.add_assoc, Nat.add_comm 1 j] using this)
        (fun j hj => by
          have := hW (j + 1) (by simpa using Nat.succ_lt_succ hj)
          simpa [Nat.add_assoc, Nat.add_comm 1 j] using this)
      simp only [downloadLoop, h0, hw0, Bool.false_eq_true, if_false, ih]
      simp [progressEvents, runningTotals, enumWrites, Nat.add_assoc,
        Nat.add_comm 1 cs.length]

/-- A loop interrupted at chunk boundary `k` after `k` clean chunks: the loop
emits the first `k` progress events, writes the first `k` chunks, and ends
with the `InterruptedError` status. -/
theorem downloadLoop_intr (ia : Option Nat) (werrs : List (Option String))
    (total : Nat) (id : String) :
    ∀ (k : Nat) (chunks : List (List Nat)) (i d : Nat),
      k < chunks.length →
      (∀ j, j < k → isIntr ia (i + j) = false) →
      (∀ j, j < k → werrs.getD (i + j) none = none) →
      isIntr ia (i + k) = true →
      downloadLoop ia werrs total id chunks i d =
        ⟨progressEvents id total (runningTotals d (chunks.take k)),
         (chunks.take k).flatten, enumWrites i (chunks.take k), .intr⟩
  | 0, [], _, _, hk, _, _, _ => by simp at hk
  | 0, c :: cs, i, d, _, _, _, hk => by
      have h0 : isIntr ia i = true := by simpa using hk
      simp [downloadLoop, h0, progressEvents, runningTotals, enumWrites]
  | k + 1, [], _, _, hk, _, _, _ => by simp at hk
  | k + 1, c :: cs, i, d, hk, hI, hW, hstop => by
      have h0 : isIntr ia i = false := by simpa using hI 0 (Nat.succ_pos k)
      have hw0 : werrs.getD i none = none := by
        simpa using hW 0 (Nat.succ_pos k)
      have ih := downloadLoop_intr ia werrs total id k cs (i + 1) (d + c.length)
        (by simpa using Nat.lt_of_succ_lt_succ hk)
        (fun j hj => by
          have := hI (j + 1) (Nat.succ_lt_succ hj)
          simpa [Nat.add_assoc, Nat.add_comm 1 j] using this)
        (fun j hj => by
          have := hW (j + 1) (Nat.succ_lt_succ hj)
          simpa [Nat.add_assoc, Nat.add_comm 1 j] using this)
        (by simpa [Nat.add_assoc, Nat.add_comm 1 k] using hstop)
      simp only [downloadLoop, h0, hw0, Bool.false_eq_true, if_false, ih]
      simp [progressEvents, runningTotals, enumWrites]

/-- A loop whose write call fails at chunk `k` after `k` clean chunks and
with no interruption observed at boundary `k`: the loop emits the first `k`
progress events, writes the first `k` chunks, and ends with the write-error
status. -/
theorem downloadLoop_werr (ia : Option Nat) (werrs : List (Option String))
    (total : Nat) (id : String) (m : String) :
    ∀ (k : Nat) (chunks : List (List Nat)) (i d : Nat),
      k < chunks.length →
      (∀ j, j < k → isIntr ia (i + j) = false) →
      (∀ j, j < k → werrs.getD (i + j) none = none) →
      isIntr ia (i + k) = false →
      werrs.getD (i + k) none = some m →
      downloadLoop ia werrs total id chunks i d =
        ⟨progressEvents id total (runningTotals d (chunks.take k)),
         (chunks.take k).flatten, enumWrites i (chunks.take k), .err m⟩
  | 0, [], _, _, hk, _, _, _, _ => by simp at hk
  | 0, c :: cs, i, d, _, _, _, hni, hw => by
      have h0 : isIntr ia i = false := by simpa using hni
      have hw0 : werrs.getD i none = some m := by simpa using hw
      simp only [downloadLoop, h0, hw0, Bool.false_eq_true, if_false]
      simp [progressEvents, runningTotals, enumWrites]
  | k + 1, [], _, _, hk, _, _, _, _ => by simp at hk
  | k + 1, c :: cs, i, d, hk, hI, hW, hni, hw => by
      have h0 : isIntr ia i = false := by simpa using hI 0 (Nat.succ_pos k)
      have hw0 : werrs.getD i none = none := by
        simpa using hW 0 (Nat.succ_pos k)
      have ih := downloadLoop_werr ia werrs total id m k cs (i + 1) (d + c.length)
        (by simpa using Nat.lt_of_succ_lt_succ hk)
        (fun j hj => by
          have := hI (j + 1) (Nat.succ_lt_succ hj)
          simpa [Nat.add_assoc, Nat.add_comm 1 j] using this)
        (fun j hj => by
          have := hW (j + 1) (Nat.succ_lt_succ hj)
          simpa [Nat.add_assoc, Nat.add_comm 1 j] using this)
        (by simpa [Nat.add_assoc, Nat.add_comm 1 k] using hni)
        (by simpa [Nat.add_assoc, Nat.add_comm 1 k] using hw)
      simp only [downloadLoop, h0, hw0, Bool.false_eq_true, if_false, ih]
      simp [progressEvents, runningTotals, enumWrites]

/-- Whatever the environment does, the loop emits only progress events. -/
theorem downloadLoop_evs_shape (ia : Option Nat) (werrs : List (Option String))
    (total : Nat) (id : String) :
    ∀ (chunks : List (List Nat)) (i d : Nat),
      ∃ ps : List Nat,
        (downloadLoop ia werrs total id chunks i d).evs =
          ps.map (Event.progress id)
  | [], i, d => ⟨[], by simp [downloadLoop]⟩
  | c :: cs, i, d => by
      cases h0 : isIntr ia i with
      | true => exact ⟨[], by simp [downloadLoop, h0]⟩
      | false =>
        rcases hw : werrs.getD i none with _ | m
        · obtain ⟨ps, hps⟩ :=
            downloadLoop_evs_shape ia werrs total id cs (i + 1) (d + c.length)
          refine ⟨pct (d + c.length) total :: ps, ?_⟩
          simp only [downloadLoop, h0, hw, Bool.false_eq_true, if_false]
          simp [hps]
        · refine ⟨[], ?_⟩
          simp only [downloadLoop, h0, hw, Bool.false_eq_true, if_false]
          simp

/-- Every write the loop performs was guarded by a flag read that observed
the interrupt flag unset. -/
theorem downloadLoop_writes_guarded (ia : Option Nat)
    (werrs : List (Option String)) (total : Nat) (id : String) :
    ∀ (chunks : List (List Nat)) (i d t : Nat) (c : List Nat),
      (t, c) ∈ (downloadLoop ia werrs total id chunks i d).writes →
      isIntr ia t = false
  | [], i, d, t, c, hmem => by simp [downloadLoop] at hmem
  | ch :: cs, i, d, t, c, hmem => by
      cases h0 : isIntr ia i with
      | true => simp [downloadLoop, h0] at hmem
      | false =>
        rcases hw : werrs.getD i none with _ | m
        · simp only [downloadLoop, h0, hw, Bool.false_eq_true, if_false] at hmem
          simp only [List.mem_cons] at hmem
          rcases hmem with hmem | hmem
          · rcases Prod.mk.injEq .. ▸ hmem with ⟨ht, _⟩
            cases ht
            exact h0
          · exact downloadLoop_writes_guarded ia werrs total id cs (i + 1)
              (d + ch.length) t c hmem
        · simp only [downloadLoop, h0, hw, Bool.false_eq_true, if_false] at hmem
          simp at hmem

/-- The percentages emitted by the loop, prefixed with the percentage of the
bytes already transferred, form a non-decreasing chain: bytes only
accumulate and `pct` is monotone. -/
theorem downloadLoop_chain (ia : Option Nat) (werrs : List (Option String))
    (total : Nat) (id : String) :
    ∀ (chunks : List (List Nat)) (i d : Nat),
      List.Chain' (· ≤ ·)
        (pct d total ::
          emittedPercents (downloadLoop ia werrs total id chunks i d).evs)
  | [], i, d => by simp [downloadLoop, emittedPercents]
  | c :: cs, i, d => by
      cases h0 : isIntr ia i with
      | true => simp [downloadLoop, h0, emittedPercents]
      | false =>
        rcases hw : werrs.getD i none with _ | m
        · have ih := downloadLoop_chain ia werrs total id cs (i + 1)
            (d + c.length)
          have hmono : pct d total ≤ pct (d + c.length) total :=
            Nat.div_le_div_right
              (Nat.mul_le_mul_right 100 (Nat.le_add_right d c.length))
          simp only [downloadLoop, h0, hw, Bool.false_eq_true, if_false]
          simpa [emittedPercents, percentOf, List.chain'_cons] using
            ⟨hmono, ih⟩
        · simp only [downloadLoop, h0, hw, Bool.false_eq_true, if_false]
          simp [emittedPercents]

/-- Text shown by a `DownloadWidget`'s status label. -/
inductive Status where
  | ready               -- "Ready to download"
  | downloading         -- "Downloading..."
  | interrupting        -- "Interrupting..."
  | complete            -- "Complete!"
  | error (msg : String) -- "Error: <msg>"
deriving DecidableEq

/-- Embedding of `DownloadWidget` state.  `interrupted` is the owned thread's
`_is_interrupted` flag; `startCalls` counts the `thread.start()` calls
actually issued (the Python object does not store this count, but it records
the otherwise-invisible side effect of launching the thread, which is what
"starting a download" means).  The thread itself is created in `__init__`
(`_setup_thread`), so every widget owns one. -/
structure Widget where
  url : String
  savePath : String
  downloadId : String
  isStarted : Bool
  isFinished : Bool
  interrupted : Bool
  interruptEnabled : Bool
  progressValue : Nat
  status : Status
  startCalls : Nat
deriving DecidableEq

/-- `DownloadWidget.__init__`: fresh widget, thread created but not started.
`uuid.uuid4()` is modelled by the externally supplied `id`. -/
def mkDownloadWidget (url savePath id : String) : Widget :=
  { url := url, savePath := savePath, downloadId := id,
    isStarted := false, isFinished := false, interrupted := false,
    interruptEnabled := false, progressValue := 0,
    status := .ready, startCalls := 0 }

/-- `DownloadWidget.start_download` (source lines 140–146): start the thread
only if not yet started (the `self.thread` conjunct of the guard is always
true, the thread being created in `__init__`). -/
def start_download (w : Widget) : Widget :=
  if !w.isStarted then
    { w with startCalls := w.startCalls + 1, status := .downloading,
             isStarted := true, interruptEnabled := true }
  else w

/-- `DownloadWidget.interrupt_download` (source lines 148–153): set the
thread's interrupt flag when started and not finished. -/
def interrupt_download (w : Widget) : Widget :=
  if w.isStarted && !w.isFinished then
    { w with interrupted := true, interruptEnabled := false,
             status := .interrupting }
  else w

/-- `DownloadWidget.update_progress` (source lines 155–164). -/
def update_progress (tid : String) (p : Nat) (w : Widget) : Widget :=
  if tid = w.downloadId then { w with progressValue := p } else w

/-- `DownloadWidget.download_finished` (source lines 166–177). -/
def download_finished (tid : String) (w : Widget) : Widget :=
  if tid = w.downloadId then
    { w with status := .complete, progressValue := 100,
             isFinished := true, interruptEnabled := false }
  else w

/-- `DownloadWidget.download_error` (source lines 179–189): note that it sets
the status label and disables the interrupt button but does NOT set
`is_finished`. -/
def download_error (tid : String) (m : String) (w : Widget) : Widget :=
  if tid = w.downloadId then
    { w with status := .error m, interruptEnabled := false }
  else w

/-- The five lifecycle states of the specification's Download Record,
derived from the widget's stored fields: Idle = never started; Finished =
completion event delivered; Errored = error event delivered (status label
shows the error); Interrupting = interrupt requested, no terminal event yet;
Running otherwise. -/
inductive RecState where
  | Idle
  | Running
  | Interrupting
  | Finished
  | Errored
deriving DecidableEq

/-- Lifecycle state of a widget's Download Record. -/
def stateOf (w : Widget) : RecState :=
  if !w.isStarted then .Idle
  else if w.isFinished then .Finished
  else
    match w.status with
    | .error _ => .Errored
    | _ => if w.interrupted then .Interrupting else .Running

/-- One iteration of the `DownloaderApp.interrupt_all_downloads` loop body
(source lines 297–299). -/
def interruptStep (w : Widget) : Widget :=
  if w.isStarted && !w.isFinished then interrupt_download w else w

/-- `DownloaderApp.interrupt_all_downloads` (source lines 295–299): the loop
over `self.downloads`. -/
def interrupt_all_downloads : List Widget → List Widget
  | [] => []
  | d :: ds =>
    (if d.isStarted && !d.isFinished then interrupt_download d else d)
      :: interrupt_all_downloads ds

/-- `DownloaderApp.start_all_downloads` (source lines 289–293): the loop over
`self.downloads`. -/
def start_all_downloads : List Widget → List Widget
  | [] => []
  | d :: ds =>
    (if !d.isStarted then start_download d else d) :: start_all_downloads ds

/-- State of `DownloaderApp` relevant to the registry operations: the text in
the URL input field and the ordered list of download widgets. -/
structure AppState where
  urlInput : String
  downloads : List Widget
deriving DecidableEq

/-- Characters stripped by Python's `str.strip()` with no arguments (ASCII
whitespace; the full Unicode whitespace set is not modelled). -/
def pyIsSpace (c : Char) : Bool :=
  c = ' ' || c = '\t' || c = '\n' || c = '\r' || c = '\x0b' || c = '\x0c'

/-- Python `url.strip()`. -/
def pyStrip (s : String) : String :=
  ⟨((s.toList.dropWhile pyIsSpace).reverse.dropWhile pyIsSpace).reverse⟩

/-- Python `url.split('?')[0]`: the text before the first `'?'`. -/
def beforeQuery (s : String) : String :=
  ⟨s.toList.takeWhile (fun c => c ≠ '?')⟩

/-- `os.path.basename` on a POSIX path: the text after the last `'/'`. -/
def basename (s : String) : String :=
  ⟨(s.toList.reverse.takeWhile (fun c => c ≠ '/')).reverse⟩

/-- `DownloaderApp.add_download` (source lines 266–287): strip the input
text; an empty result aborts with nothing changed (in particular the input
field is not cleared).  Otherwise derive the file name, append a fresh
widget, and clear the input field.  `freshId` models the `uuid.uuid4()`
generated inside the new widget's thread. -/
def add_download (freshId : String) (app : AppState) : AppState :=
  let url := pyStrip app.urlInput
  if url = "" then app
  else
    let fn := basename (beforeQuery url)
    let filename :=
      if fn = "" then "download_" ++ toString (app.downloads.length + 1)
      else fn
    let w := mkDownloadWidget url filename freshId
    { app with downloads := app.downloads ++ [w], urlInput := "" }

/-- `DownloaderApp.clear_downloads` (source lines 301–326): return at once on
an empty list; otherwise ask for confirmation (owned by the UI, modelled by
the `confirmed` argument); on yes, interrupt all active downloads, then
remove every widget and clear the list.  The interrupted widgets are all
removed immediately afterwards, so the surviving state has an empty list. -/
def clear_downloads (confirmed : Bool) (app : AppState) : AppState :=
  if app.downloads.isEmpty then app
  else if confirmed then
    let ws := interrupt_all_downloads app.downloads
    { app with downloads := ws.drop ws.length }
  else app

/-- Modelled from the spec (for comparison with the code, not taken from
it): the trace shape claimed for one worker execution — zero or more
progress events followed by exactly one terminal event (completion or
error), nothing after the terminal event. -/
def specTerminalTrace (id : String) (evs : List Event) : Prop :=
  ∃ ps : List Nat,
    evs = ps.map (Event.progress id) ++ [Event.finished id] ∨
    ∃ m, evs = ps.map (Event.progress id) ++ [Event.error id m]

/-- A download with unknown total size (no Content-Length) whose interrupt
flag is set before the worker reaches the bulk-write check. -/
def exW1 : World :=
  { downloadId := "d1", net := .resp ⟨none, 0, [[1, 2]]⟩, openErr := none,
    writeErrs := [], interruptAt := some 0, file0 := .absent }

/-- A download with unknown total size, a pre-existing destination file, and
the interrupt flag set before the bulk-write check. -/
def exW2 : World :=
  { downloadId := "d2", net := .resp ⟨none, 0, [[5]]⟩, openErr := none,
    writeErrs := [], interruptAt := some 0, file0 := .present [9] }

/-- A known-size download, interrupted at the second chunk boundary. -/
def exW2k : World :=
  { downloadId := "d2", net := .resp ⟨none, 4, [[1, 1], [2, 2]]⟩,
    openErr := none, writeErrs := [], interruptAt := some 1,
    file0 := .absent }

/-- A known-size download that runs to completion unhindered. -/
def exW3 : World :=
  { downloadId := "d3", net := .resp ⟨none, 2, [[7, 7]]⟩, openErr := none,
    writeErrs := [], interruptAt := none, file0 := .absent }

/-- A known-size download whose second write call fails with a disk error. -/
def exW5 : World :=
  { downloadId := "d5", net := .resp ⟨none, 4, [[1, 1], [2, 2]]⟩,
    openErr := none, writeErrs := [none, some "disk full"],
    interruptAt := none, file0 := .absent }

/-- A known-size download delivering two chunks of one byte each. -/
def exW7 : World :=
  { downloadId := "d7", net := .resp ⟨none, 2, [[1], [1]]⟩, openErr := none,
    writeErrs := [], interruptAt := none, file0 := .absent }

/-- A widget whose download was started and then received an error event:
its record is in the Errored state (note `is_finished` stays false). -/
def exErrWidget : Widget :=
  download_error "a" "boom"
    (start_download (mkDownloadWidget "http://x/f.bin" "f.bin" "a"))

/-- A widget never started: its record is in the Idle state. -/
def exIdleWidget : Widget := mkDownloadWidget "http://y/g.bin" "g.bin" "b"

/-- A started widget, for exercising the started-is-a-no-op half of the
start-idempotence claim. -/
def exStartedWidget : Widget :=
  start_download (mkDownloadWidget "http://z/h.bin" "h.bin" "c")

theorem isIntr_none (t : Nat) : isIntr none t = false := rfl

theorem stateOf_idle_iff (w : Widget) :
    stateOf w = RecState.Idle ↔ w.isStarted = false := by
  cases hs : w.isStarted <;> cases hf : w.isFinished <;>
    cases hi : w.interrupted <;> cases hst : w.status <;>
      simp [stateOf, hs, hf, hi, hst]

theorem stateOf_finished_iff (w : Widget) :
    stateOf w = RecState.Finished ↔
      (w.isStarted = true ∧ w.isFinished = true) := by
  cases hs : w.isStarted <;> cases hf : w.isFinished <;>
    cases hi : w.interrupted <;> cases hst : w.status <;>
      simp [stateOf, hs, hf, hi, hst]

theorem stateOf_errored (w : Widget) (h : stateOf w = RecState.Errored) :
    w.isStarted = true ∧ w.isFinished = false ∧ ∃ m, w.status = .error m := by
  cases hs : w.isStarted <;> cases hf : w.isFinished <;>
    cases hi : w.interrupted <;> cases hst : w.status <;>
      simp_all [stateOf, hs, hf, hi, hst]

/-- C8: `start_download` is a no-op on an already-started widget, and a
second (or any later) `start_all_downloads` pass leaves the list exactly as
the first pass left it — in particular no widget's thread is started a
second time (the recorded `startCalls` counts are unchanged). -/
theorem C8_start_idempotent (w : Widget) (ws : List Widget) :
    (w.isStarted = true → start_download w = w) ∧
    start_all_downloads (start_all_downloads ws) = start_all_downloads ws := by
  constructor
  · intro h
    simp [start_download, h]
  · induction ws with
    | nil => rfl
    | cons d ds ih =>
      cases hd : d.isStarted <;>
        simp [start_all_downloads, start_download, hd, ih]

theorem C8_witness :
    start_download exStartedWidget = exStartedWidget ∧
    start_all_downloads (start_all_downloads [exIdleWidget]) =
      start_all_downloads [exIdleWidget] :=
  ⟨(C8_start_idempotent exStartedWidget [exIdleWidget]).1 rfl,
   (C8_start_idempotent exStartedWidget [exIdleWidget]).2⟩

/-- C9: after the externally confirmed `clear_downloads`, the registry holds
exactly zero records — for any prior contents, started or not. -/
theorem C9_clear_empties (app : AppState) :
    (clear_downloads true app).downloads = [] := by
  unfold clear_downloads
  by_cases h : app.downloads.isEmpty
  · simp_all [List.isEmpty_iff]
  · simp [h, List.drop_length]

/-- C10: `add_download` on an input that is empty or all whitespace is a
no-op — the widget list, the layout, and even the input field are left
exactly as they were. -/
theorem C10_add_blank_noop (fid : String) (app : AppState)
    (h : app.urlInput.toList.all pyIsSpace = true) :
    add_download fid app = app := by
  have hdrop : List.dropWhile pyIsSpace app.urlInput.data = [] := by
    rw [List.dropWhile_eq_nil_iff]
    intro x hx
    exact List.all_eq_true.mp h x hx
  have hstrip : pyStrip app.urlInput = "" := by
    simp [pyStrip, String.toList, hdrop]
  simp [add_download, hstrip]

theorem C10_witness :
    add_download "fresh-id" ⟨"  \t ", []⟩ = ⟨"  \t ", []⟩ :=
  C10_add_blank_noop "fresh-id" ⟨"  \t ", []⟩ (by decide)

/-- C4 counterexample: a record in the Errored state is NOT left untouched
by `interrupt_all_downloads` — the error handler never sets `is_finished`,
so the guard `is_started and not is_finished` still passes, the dead
worker's interrupt flag is set, and the status label changes to
"Interrupting...". -/
theorem C4_counterexample :
    stateOf exErrWidget = RecState.Errored ∧
    interrupt_all_downloads [exErrWidget] ≠ [exErrWidget] ∧
    interrupt_all_downloads [exErrWidget] =
      [{ exErrWidget with interrupted := true, interruptEnabled := false,
                          status := .interrupting }] := by
  refine ⟨rfl, ?_, rfl⟩
  decide

/-- C4 (amended): `interrupt_all_downloads` applies the guarded interrupt
step to every record; records that are Idle (never started) or Finished are
untouched, but an Errored record — which is started with `is_finished` still
false — has its worker's interrupt flag set, its interrupt button disabled,
and its status label changed to "Interrupting...". -/
theorem C4_amended (ws : List Widget) (w : Widget) :
    interrupt_all_downloads ws = ws.map interruptStep ∧
    (stateOf w = RecState.Idle ∨ stateOf w = RecState.Finished →
      interruptStep w = w) ∧
    (stateOf w = RecState.Errored →
      interruptStep w = { w with interrupted := true, interruptEnabled := false, status := .interrupting }) := by
  refine ⟨?_, ?_, ?_⟩
  · induction ws with
    | nil => rfl
    | cons d ds ih => simp [interrupt_all_downloads, interruptStep, ih]
  · rintro (h | h)
    · have hs := (stateOf_idle_iff w).mp h
      simp [interruptStep, hs]
    · have hf := ((stateOf_finished_iff w).mp h).2
      simp [interruptStep, hf]
  · intro h
    obtain ⟨hs, hf, -⟩ := stateOf_errored w h
    simp [interruptStep, interrupt_download, hs, hf]

theorem C4_witness :
    interrupt_all_downloads [exIdleWidget] = [exIdleWidget].map interruptStep ∧
    interruptStep exIdleWidget = exIdleWidget ∧
    interruptStep exErrWidget = { exErrWidget with interrupted := true, interruptEnabled := false, status := .interrupting } :=
  ⟨(C4_amended [exIdleWidget] exIdleWidget).1,
   (C4_amended [exIdleWidget] exIdleWidget).2.1 (Or.inl rfl),
   (C4_amended [exIdleWidget] exErrWidget).2.2 rfl⟩

/-- C3: every byte the worker writes is written under a flag check that
observed the interrupt flag unset — the worker checks `_is_interrupted`
before each chunk write and before the bulk write, so once the flag is
observably set no further bytes reach the file. -/
theorem C3_writes_guarded (w : World) (t : Nat) (c : List Nat)
    (hmem : (t, c) ∈ (run w).writes) : isIntr w.interruptAt t = false := by
  rcases hnet : w.net with m | r
  · simp [run, hnet] at hmem
  · rcases hre : r.raiseErr with _ | m
    · rcases hoe : w.openErr with _ | m
      · by_cases hcl : r.contentLength = 0
        · cases hi0 : isIntr w.interruptAt 0
          · rcases hw0 : w.writeErrs.getD 0 none with _ | m
            · cases hi1 : isIntr w.interruptAt 1 <;>
              · simp only [run, hnet, hre, hoe, hcl, if_true, hi0, hw0, hi1,
                  Bool.false_eq_true, if_false] at hmem
                simp at hmem
                cases hmem.1
                exact hi0
            · simp only [run, hnet, hre, hoe, hcl, if_true, hi0, hw0,
                Bool.false_eq_true, if_false] at hmem
              simp at hmem
          · simp only [run, hnet, hre, hoe, hcl, if_true, hi0] at hmem
            simp at hmem
        · rcases hst : (downloadLoop w.interruptAt w.writeErrs r.contentLength
              w.downloadId r.chunks 0 0).status with n | _ | m
          · cases hin : isIntr w.interruptAt n <;>
            · simp only [run, hnet, hre, hoe, hcl, if_false, hst, hin,
                Bool.false_eq_true] at hmem
              exact downloadLoop_writes_guarded w.interruptAt w.writeErrs
                r.contentLength w.downloadId r.chunks 0 0 t c hmem
          · simp only [run, hnet, hre, hoe, hcl, if_false, hst] at hmem
            exact downloadLoop_writes_guarded w.interruptAt w.writeErrs
              r.contentLength w.downloadId r.chunks 0 0 t c hmem
          · simp only [run, hnet, hre, hoe, hcl, if_false, hst] at hmem
            exact downloadLoop_writes_guarded w.interruptAt w.writeErrs
              r.contentLength w.downloadId r.chunks 0 0 t c hmem
      · simp [run, hnet, hre, hoe] at hmem
    · simp [run, hnet, hre] at hmem

theorem C3_witness : isIntr exW3.interruptAt 0 = false :=
  C3_writes_guarded exW3 0 [7, 7] (by decide)

/-- C1 counterexample: a worker with an unknown total size whose interrupt
flag is set before the bulk-write check emits NO event at all — the write is
skipped without raising, so neither an error event nor a finished event is
produced, and the claimed "exactly one terminal event" trace shape fails. -/
theorem C1_counterexample : ¬ specTerminalTrace "d1" (run exW1).events := by
  rintro ⟨ps, h | ⟨m, h⟩⟩ <;>
    (rw [show (run exW1).events = [] from rfl] at h
     exact absurd h.symm (by simp))

/-- C1 (amended): every execution of `run` emits zero or more progress
events followed by AT MOST one terminal event (finished or error), and
nothing after it; the terminal event can be missing — when the total size is
unknown and interruption is observed, or when interruption is first observed
at the final pre-finished check. -/
theorem C1_amended_trace (w : World) :
    ∃ (ps : List Nat) (rest : List Event),
      (run w).events = ps.map (Event.progress w.downloadId) ++ rest ∧
      (rest = [] ∨ rest = [Event.finished w.downloadId] ∨
        ∃ m, rest = [Event.error w.downloadId m]) := by
  rcases hnet : w.net with m | r
  · exact ⟨[], [Event.error w.downloadId m], by simp [run, hnet],
      Or.inr (Or.inr ⟨m, rfl⟩)⟩
  · rcases hre : r.raiseErr with _ | m
    · rcases hoe : w.openErr with _ | m
      · by_cases hcl : r.contentLength = 0
        · cases hi0 : isIntr w.interruptAt 0
          · rcases hw0 : w.writeErrs.getD 0 none with _ | m
            · cases hi1 : isIntr w.interruptAt 1
              · refine ⟨[], [Event.finished w.downloadId], ?_,
                  Or.inr (Or.inl rfl)⟩
                simp only [run, hnet, hre, hoe, hcl, eq_self_iff_true,
                  if_true, hi0, hw0, hi1, Bool.false_eq_true, if_false]
                simp
              · refine ⟨[], [], ?_, Or.inl rfl⟩
                simp only [run, hnet, hre, hoe, hcl, eq_self_iff_true,
                  if_true, hi0, hw0, hi1, Bool.false_eq_true, if_false]
                simp
            · refine ⟨[], [Event.error w.downloadId m], ?_,
                Or.inr (Or.inr ⟨m, rfl⟩)⟩
              simp only [run, hnet, hre, hoe, hcl, eq_self_iff_true,
                if_true, hi0, hw0, Bool.false_eq_true, if_false]
              simp
          · refine ⟨[], [], ?_, Or.inl rfl⟩
            simp only [run, hnet, hre, hoe, hcl, eq_self_iff_true, if_true,
              hi0, if_true]
            simp
        · obtain ⟨ps, hps⟩ := downloadLoop_evs_shape w.interruptAt
            w.writeErrs r.contentLength w.downloadId r.chunks 0 0
          rcases hst : (downloadLoop w.interruptAt w.writeErrs
              r.contentLength w.downloadId r.chunks 0 0).status with n | _ | m
          · cases hin : isIntr w.interruptAt n
            · refine ⟨ps, [Event.finished w.downloadId], ?_,
                Or.inr (Or.inl rfl)⟩
              simp only [run, hnet, hre, hoe]
              rw [if_neg hcl]
              simp only [hst, hin, Bool.false_eq_true, if_false]
              simp [hps]
            · refine ⟨ps, [], ?_, Or.inl rfl⟩
              simp only [run, hnet, hre, hoe]
              rw [if_neg hcl]
              simp only [hst, hin, if_true]
              simp [hps]
          · refine ⟨ps, [Event.error w.downloadId
              "Download interrupted by user"], ?_,
              Or.inr (Or.inr ⟨_, rfl⟩)⟩
            simp only [run, hnet, hre, hoe]
            rw [if_neg hcl]
            simp only [hst]
            simp [hps]
          · refine ⟨ps, [Event.error w.downloadId m], ?_,
              Or.inr (Or.inr ⟨m, rfl⟩)⟩
            simp only [run, hnet, hre, hoe]
            rw [if_neg hcl]
            simp only [hst]
            simp [hps]
      · exact ⟨[], [Event.error w.downloadId m], by simp [run, hnet, hre, hoe],
          Or.inr (Or.inr ⟨m, rfl⟩)⟩
    · exact ⟨[], [Event.error w.downloadId m], by simp [run, hnet, hre],
        Or.inr (Or.inr ⟨m, rfl⟩)⟩

/-- C2 counterexample: with total size unknown and the interrupt flag set
before the bulk-write check, interruption IS detected (the check observes
the flag) yet `run` emits no error event and does not delete the
destination file — the opened, truncated file survives. -/
theorem C2_counterexample :
    isIntr exW2.interruptAt 0 = true ∧ (run exW2).events = [] ∧
    (run exW2).file = FileState.present [] := ⟨rfl, rfl, rfl⟩

/-- C2 (amended): when the total size is known, interruption detected at a
chunk boundary makes `run` emit the progress events for the chunks already
written followed by an Error event carrying "Download interrupted by user",
and the destination file is deleted.  When the total size is unknown, the
interruption check before the bulk write merely skips the write: no error
event is emitted and the (empty, truncated) destination file is kept. -/
theorem C2_amended (w : World) (r : HttpResponse)
    (hnet : w.net = .resp r) (hre : r.raiseErr = none)
    (hoe : w.openErr = none) :
    (∀ k, r.contentLength ≠ 0 → w.interruptAt = some k →
      k < r.chunks.length →
      (∀ j, j < k → w.writeErrs.getD j none = none) →
      (run w).events =
        progressEvents w.downloadId r.contentLength
          (runningTotals 0 (r.chunks.take k)) ++
        [Event.error w.downloadId "Download interrupted by user"] ∧
      (run w).file = FileState.absent) ∧
    (r.contentLength = 0 → isIntr w.interruptAt 0 = true →
      (run w).events = [] ∧ (run w).file = FileState.present []) := by
  constructor
  · intro k hcl hia hk hclean
    have hloop := downloadLoop_intr w.interruptAt w.writeErrs r.contentLength
      w.downloadId k r.chunks 0 0 hk
      (fun j hj => by simp [isIntr, hia]; omega)
      (fun j hj => by simpa using hclean j hj)
      (by simp [isIntr, hia])
    constructor <;>
      (simp only [run, hnet, hre, hoe]
       rw [if_neg hcl]
       simp [hloop])
  · intro hcl hi0
    constructor <;>
      simp [run, hnet, hre, hoe, hcl, hi0]

theorem C2_witness :
    (run exW2k).events =
      [Event.progress "d2" 50,
       Event.error "d2" "Download interrupted by user"] ∧
    (run exW2k).file = FileState.absent := by
  have h := (C2_amended exW2k ⟨none, 4, [[1, 1], [2, 2]]⟩ rfl rfl rfl).1 1
    (by decide) rfl (by decide) (fun j hj => rfl)
  simpa [progressEvents, runningTotals, pct] using h

/-- C5: every fault other than interruption — a connection failure, a
non-success HTTP status, a failing `open`, or a write error (on the bulk
write or on any chunk write) — makes `run` emit exactly one Error event
carrying the underlying message as its final event, and the destination
file is never deleted: it stays exactly as it was (untouched when never
opened, truncated-empty or holding the chunks already written when the
write path was reached). -/
theorem C5_fault_single_error (w : World) (hni : w.interruptAt = none) :
    (∀ m, w.net = .fail m →
      run w = ⟨[Event.error w.downloadId m], w.file0, []⟩) ∧
    (∀ r m, w.net = .resp r → r.raiseErr = some m →
      run w = ⟨[Event.error w.downloadId m], w.file0, []⟩) ∧
    (∀ r m, w.net = .resp r → r.raiseErr = none → w.openErr = some m →
      run w = ⟨[Event.error w.downloadId m], w.file0, []⟩) ∧
    (∀ r m, w.net = .resp r → r.raiseErr = none → w.openErr = none →
      r.contentLength = 0 → w.writeErrs.getD 0 none = some m →
      run w = ⟨[Event.error w.downloadId m], FileState.present [], []⟩) ∧
    (∀ r m k, w.net = .resp r → r.raiseErr = none → w.openErr = none →
      r.contentLength ≠ 0 → k < r.chunks.length →
      (∀ j, j < k → w.writeErrs.getD j none = none) →
      w.writeErrs.getD k none = some m →
      run w = ⟨progressEvents w.downloadId r.contentLength
          (runningTotals 0 (r.chunks.take k)) ++ [Event.error w.downloadId m],
        FileState.present (r.chunks.take k).flatten,
        enumWrites 0 (r.chunks.take k)⟩) := by
  refine ⟨?_, ?_, ?_, ?_, ?_⟩
  · intro m hnet
    simp [run, hnet]
  · intro r m hnet hre
    simp [run, hnet, hre]
  · intro r m hnet hre hoe
    simp [run, hnet, hre, hoe]
  · intro r m hnet hre hoe hcl hw0
    simp only [run, hnet, hre, hoe, hcl, eq_self_iff_true, if_true, hni,
      isIntr, Bool.false_eq_true, if_false, hw0]
  · intro r m k hnet hre hoe hcl hk hclean hwk
    have hloop := downloadLoop_werr w.interruptAt w.writeErrs r.contentLength
      w.downloadId m k r.chunks 0 0 hk
      (fun j hj => by simp [isIntr, hni])
      (fun j hj => by simpa using hclean j hj)
      (by simp [isIntr, hni])
      (by simpa using hwk)
    simp only [run, hnet, hre, hoe]
    rw [if_neg hcl]
    simp [hloop]

theorem C5_witness :
    run exW5 = ⟨[Event.progress "d5" 50, Event.error "d5" "disk full"],
      FileState.present [1, 1], [(0, [1, 1])]⟩ := by
  have h := (C5_fault_single_error exW5 rfl).2.2.2.2 ⟨none, 4, [[1, 1], [2, 2]]⟩
    "disk full" 1 rfl rfl rfl (by decide) (by decide)
    (fun j hj => by interval_cases j; rfl) rfl
  simpa [progressEvents, runningTotals, pct, enumWrites] using h

/-- C7: for a download whose declared total size is known (nonzero), the
percent values carried by the progress events `run` emits form a
non-decreasing sequence — bytes only accumulate and the percentage is
monotone in the byte count. -/
theorem C7_progress_monotone (w : World) (r : HttpResponse)
    (hnet : w.net = .resp r) (hpos : r.contentLength ≠ 0) :
    List.Chain' (· ≤ ·) (emittedPercents (run w).events) := by
  rcases hre : r.raiseErr with _ | m
  · rcases hoe : w.openErr with _ | m
    · have hchain := downloadLoop_chain w.interruptAt w.writeErrs
        r.contentLength w.downloadId r.chunks 0 0
      have htail : List.Chain' (· ≤ ·) (emittedPercents (downloadLoop
          w.interruptAt w.writeErrs r.contentLength w.downloadId
          r.chunks 0 0).evs) :=
        (List.chain'_cons'.mp hchain).2
      rcases hst : (downloadLoop w.interruptAt w.writeErrs r.contentLength
          w.downloadId r.chunks 0 0).status with n | _ | m
      · cases hin : isIntr w.interruptAt n
        · have he : (run w).events = (downloadLoop w.interruptAt w.writeErrs
              r.contentLength w.downloadId r.chunks 0 0).evs ++
              [Event.finished w.downloadId] := by
            simp only [run, hnet, hre, hoe]
            rw [if_neg hpos]
            simp [hst, hin]
          rw [he]
          simpa [emittedPercents, percentOf] using htail
        · have he : (run w).events = (downloadLoop w.interruptAt w.writeErrs
              r.contentLength w.downloadId r.chunks 0 0).evs := by
            simp only [run, hnet, hre, hoe]
            rw [if_neg hpos]
            simp [hst, hin]
          rw [he]
          exact htail
      · have he : (run w).events = (downloadLoop w.interruptAt w.writeErrs
            r.contentLength w.downloadId r.chunks 0 0).evs ++
            [Event.error w.downloadId "Download interrupted by user"] := by
          simp only [run, hnet, hre, hoe]
          rw [if_neg hpos]
          simp [hst]
        rw [he]
        simpa [emittedPercents, percentOf] using htail
      · have he : (run w).events = (downloadLoop w.interruptAt w.writeErrs
            r.contentLength w.downloadId r.chunks 0 0).evs ++
            [Event.error w.downloadId m] := by
          simp only [run, hnet, hre, hoe]
          rw [if_neg hpos]
          simp [hst]
        rw [he]
        simpa [emittedPercents, percentOf] using htail
    · simp [run, hnet, hre, hoe, emittedPercents, percentOf]
  · simp [run, hnet, hre, emittedPercents, percentOf]

theorem C7_witness :
    List.Chain' (· ≤ ·) (emittedPercents (run exW7).events) :=
  C7_progress_monotone exW7 ⟨none, 2, [[1], [1]]⟩ rfl (by decide)

/-- C6 supporting evaluation: at the failing input for the percentage claim
(29 chunks of 4096 bytes received out of a declared 409600), the exact
floor that the spec prescribes — and that this embedding's `pct` computes —
is 29, whereas the source's IEEE-double expression
`int((118784 / 409600) * 100)` evaluates to 28. -/
theorem C6_exact_floor_at_failing_input : pct 118784 409600 = 29 := by
  decide

end Downloader
